import Mathlib

/-!
Shallow embedding of src/rpi-led-matrix/device.py: the MAX7219 cascade
Device base class and the Matrix subclass built on it.

Modelling conventions.  Framebuffer byte values are natural numbers
(Python ints; every value the code stores is non-negative).  Bus
transfers performed by a call are recorded, in order, as a list of
byte sequences (each `xfer2` call is one entry).  A Python assertion
failure or raised exception is modelled as a `PyErr` value returned next
to the state, because a Python exception leaves already-performed buffer
mutations and bus writes in place.
-/

namespace RpiLedMatrix

/-- Register constants from class Constants in device.py. -/
def MAX7219_REG_NOOP : Nat := 0x0

def MAX7219_REG_DIGIT0 : Nat := 0x1

def MAX7219_REG_DIGIT7 : Nat := 0x8

def MAX7219_REG_DECODEMODE : Nat := 0x9

def MAX7219_REG_INTENSITY : Nat := 0xA

def MAX7219_REG_SCANLIMIT : Nat := 0xB

def MAX7219_REG_SHUTDOWN : Nat := 0xC

def MAX7219_REG_DISPLAYTEST : Nat := 0xF

/-- `Device.NUM_DIGITS` in device.py. -/
def NUM_DIGITS : Nat := 8

/-- The exceptions the code can raise: each `assert` in device.py becomes
one constructor, and the `OverflowError` raised by `Matrix.letter`
carries the ascii code it names in its message. -/
inductive PyErr where
  | invalidCascade
  | invalidRegister
  | invalidDeviceId
  | invalidPosition
  | invalidBrightness
  | invalidAscii
  | invalidPixelX
  | invalidPixelY
  | glyphOverflow (asciiCode : Nat)
deriving DecidableEq

/-- State of one `Device` object: the cascade size `self._cascaded` and
the flat framebuffer `self._buffer`. -/
structure Device where
  cascaded : Nat
  buffer : List Nat
deriving DecidableEq

/-- Result of running one method: the object state when the method
returned or raised, the bus transfers it performed (each `xfer2` call is
one list of bytes), and the exception if one was raised. -/
structure Res where
  dev : Device
  tx : List (List Int)
  err : Option PyErr
deriving DecidableEq

/-- Sequencing of two method calls: the second runs only if the first
did not raise; transfers accumulate. -/
def Res.andThen (r : Res) (f : Device → Res) : Res :=
  match r.err with
  | some _ => r
  | none =>
    let r2 := f r.dev
    { dev := r2.dev, tx := r.tx ++ r2.tx, err := r2.err }

/-- `Device.command(register, data)`: asserts the register lies in
[DECODEMODE, DISPLAYTEST], then writes `[register, data] * cascaded`
(the pair concatenated once per cascaded device) in one transfer. -/
def Device.command (d : Device) (register data : Int) : Res :=
  if (MAX7219_REG_DECODEMODE : Int) ≤ register ∧ register ≤ (MAX7219_REG_DISPLAYTEST : Int) then
    { dev := d, tx := [(List.replicate d.cascaded [register, data]).flatten], err := none }
  else
    { dev := d, tx := [], err := some .invalidRegister }

/-- `Device._values(position)`: for each cascaded device in order, yield
the register byte `position + DIGIT0` then the buffer byte at offset
`deviceId * NUM_DIGITS + position` (in range whenever the buffer has its
invariant length, which holds at every `flush` call site). -/
def Device.values (d : Device) (position : Nat) : List Int :=
  (List.range d.cascaded).flatMap fun deviceId =>
    [((position + MAX7219_REG_DIGIT0 : Nat) : Int),
     ((d.buffer.getD (deviceId * NUM_DIGITS + position) 0 : Nat) : Int)]

/-- `Device.flush()`: one `_write` (bus transfer) per digit/column
position 0..7, each carrying `_values(posn)`. -/
def Device.flush (d : Device) : List (List Int) :=
  (List.range NUM_DIGITS).map fun posn => d.values posn

/-- `Device.set_byte(deviceId, position, value, redraw)`: asserts
`0 <= deviceId < cascaded` and `DIGIT0 <= position <= DIGIT7`, stores
`value` at offset `deviceId * NUM_DIGITS + position - DIGIT0`, and
flushes when `redraw` is set. -/
def Device.set_byte (d : Device) (deviceId position : Nat) (value : Nat)
    (redraw : Bool) : Res :=
  if deviceId < d.cascaded then
    if MAX7219_REG_DIGIT0 ≤ position ∧ position ≤ MAX7219_REG_DIGIT7 then
      let offset := deviceId * NUM_DIGITS + position - MAX7219_REG_DIGIT0
      let d2 : Device := { d with buffer := d.buffer.set offset value }
      { dev := d2, tx := if redraw then d2.flush else [], err := none }
    else
      { dev := d, tx := [], err := some .invalidPosition }
  else
    { dev := d, tx := [], err := some .invalidDeviceId }

/-- Inner loop of `Device.clear`: for `position in range(NUM_DIGITS)`,
`set_byte(deviceId, position + DIGIT0, 0, redraw=False)`. -/
def Device.clearDeviceLoop (r : Res) (deviceId : Nat) : Res :=
  (List.range NUM_DIGITS).foldl
    (fun r2 position => r2.andThen fun dev =>
      dev.set_byte deviceId (position + MAX7219_REG_DIGIT0) 0 false)
    r

/-- Outer loop of `Device.clear`: `for deviceId in range(start, end)`. -/
def Device.clearLoop (d : Device) (start stop : Nat) : Res :=
  (List.range' start (stop - start)).foldl Device.clearDeviceLoop
    { dev := d, tx := [], err := none }

/-- The guard `not deviceId or 0 <= deviceId < self._cascaded` of the
assert in `Device.clear`: Python truthiness makes `not deviceId` true
for both `None` and `0`. -/
def clearGuard (d : Device) (deviceId : Option Nat) : Bool :=
  match deviceId with
  | none => true
  | some k => k == 0 || decide (k < d.cascaded)

/-- `Device.clear(deviceId=None)`: after the assert, zeroes one device
(8 bytes) or all devices via `set_byte(..., redraw=False)`, then
flushes once. -/
def Device.clear (d : Device) (deviceId : Option Nat) : Res :=
  if clearGuard d deviceId then
    let start := match deviceId with | none => 0 | some k => k
    let stop := match deviceId with | none => d.cascaded | some k => k + 1
    (d.clearLoop start stop).andThen fun dev =>
      { dev := dev, tx := dev.flush, err := none }
  else
    { dev := d, tx := [], err := some .invalidDeviceId }

/-- `Device.brightness(intensity)`: asserts `0 <= intensity < 16`, then
writes the INTENSITY register through `command`. -/
def Device.brightness (d : Device) (intensity : Int) : Res :=
  if 0 ≤ intensity ∧ intensity < 16 then
    d.command ((MAX7219_REG_INTENSITY : Nat) : Int) intensity
  else
    { dev := d, tx := [], err := some .invalidBrightness }

/-- `Device.scroll_left(redraw)`: `del self._buffer[0]` then append a
zero byte (the buffer is never empty at any call site, so `eraseIdx 0`
matches the Python deletion). -/
def Device.scroll_left (d : Device) (redraw : Bool) : Device × List (List Int) :=
  let d2 : Device := { d with buffer := d.buffer.eraseIdx 0 ++ [0] }
  (d2, if redraw then d2.flush else [])

/-- `Device.scroll_right(redraw)`: `del self._buffer[NUM_DIGITS - 1]`
(index 7 of the flat buffer) then `insert(0, 0)`, i.e. prepend a zero
byte (the buffer always has at least NUM_DIGITS entries, so `eraseIdx`
matches the Python deletion). -/
def Device.scroll_right (d : Device) (redraw : Bool) : Device × List (List Int) :=
  let d2 : Device := { d with buffer := 0 :: d.buffer.eraseIdx (NUM_DIGITS - 1) }
  (d2, if redraw then d2.flush else [])

/-- `Device.__init__(cascaded, ...)`: asserts `cascaded > 0`, allocates
`[0] * NUM_DIGITS * cascaded`, then runs the fixed init sequence:
SCANLIMIT=7, DECODEMODE=0, DISPLAYTEST=0, SHUTDOWN=1, brightness 7,
clear().  The SPI bus handle itself is outside the model. -/
def Device.init (cascaded : Int) : Except PyErr (Device × List (List Int)) :=
  if 0 < cascaded then
    let d0 : Device :=
      { cascaded := cascaded.toNat
        buffer := List.replicate (NUM_DIGITS * cascaded.toNat) 0 }
    let r :=
      ((((((d0.command ((MAX7219_REG_SCANLIMIT : Nat) : Int) 7).andThen
        fun d1 => d1.command ((MAX7219_REG_DECODEMODE : Nat) : Int) 0).andThen
        fun d2 => d2.command ((MAX7219_REG_DISPLAYTEST : Nat) : Int) 0).andThen
        fun d3 => d3.command ((MAX7219_REG_SHUTDOWN : Nat) : Int) 1).andThen
        fun d4 => d4.brightness 7).andThen
        fun d5 => d5.clear none)
    match r.err with
    | some e => .error e
    | none => .ok (r.dev, r.tx)
  else
    .error .invalidCascade

/-- Loop body of `Matrix.letter`: iterate over the glyph column values
with the running register `col` (starting at DIGIT0); past DIGIT7 the
device is cleared and OverflowError is raised, otherwise
`set_byte(deviceId, col, value, redraw=False)` and `col += 1`. -/
def Matrix.letterLoop (d : Device) (deviceId : Nat) (values : List Nat)
    (col : Nat) (asciiCode : Nat) : Res :=
  match values with
  | [] => { dev := d, tx := [], err := none }
  | v :: rest =>
    if MAX7219_REG_DIGIT7 < col then
      let r := d.clear (some deviceId)
      match r.err with
      | some e => { dev := r.dev, tx := r.tx, err := some e }
      | none => { dev := r.dev, tx := r.tx, err := some (.glyphOverflow asciiCode) }
    else
      (d.set_byte deviceId col v false).andThen fun dev =>
        Matrix.letterLoop dev deviceId rest (col + 1) asciiCode

/-- `Matrix.letter(deviceId, asciiCode, font, redraw)`: asserts
`0 <= asciiCode < 256`, writes the glyph columns through the loop, then
flushes when `redraw` is set and no exception was raised. -/
def Matrix.letter (d : Device) (deviceId asciiCode : Nat)
    (font : Nat → List Nat) (redraw : Bool) : Res :=
  if asciiCode < 256 then
    (Matrix.letterLoop d deviceId (font asciiCode) MAX7219_REG_DIGIT0 asciiCode).andThen
      fun dev => { dev := dev, tx := if redraw then dev.flush else [], err := none }
  else
    { dev := d, tx := [], err := some .invalidAscii }

/-- `Matrix.scroll_up(redraw)`: `[value >> 1 for value in self._buffer]`. -/
def Matrix.scroll_up (d : Device) (redraw : Bool) : Device × List (List Int) :=
  let d2 : Device := { d with buffer := d.buffer.map fun value => value >>> 1 }
  (d2, if redraw then d2.flush else [])

/-- `Matrix.scroll_down(redraw)`: `[value << 1 for value in self._buffer]`
(note: no 8-bit truncation in the source). -/
def Matrix.scroll_down (d : Device) (redraw : Bool) : Device × List (List Int) :=
  let d2 : Device := { d with buffer := d.buffer.map fun value => value <<< 1 }
  (d2, if redraw then d2.flush else [])

/-- `Matrix.pixel(x, y, value, redraw)`: asserts
`0 <= x < len(self._buffer)` and `0 <= y < 8`, then runs
`self._buffer[y] |= (1 << x)` when `value` is truthy and
`self._buffer[y] &= ~(1 << x)` otherwise (on non-negative ints the
latter is `Nat.ldiff`, bitwise AND with the complement). -/
def Matrix.pixel (d : Device) (x y : Nat) (value : Nat) (redraw : Bool) : Res :=
  if x < d.buffer.length then
    if y < 8 then
      let old := d.buffer.getD y 0
      let b2 := if value ≠ 0 then old ||| (1 <<< x) else Nat.ldiff old (1 <<< x)
      let d2 : Device := { d with buffer := d.buffer.set y b2 }
      { dev := d2, tx := if redraw then d2.flush else [], err := none }
    else
      { dev := d, tx := [], err := some .invalidPixelY }
  else
    { dev := d, tx := [], err := some .invalidPixelX }

/-- The four scroll operations of the cascade, as callers invoke them
(default `redraw=True`). -/
inductive ScrollOp where
  | left
  | right
  | up
  | down
deriving DecidableEq

/-- Apply one scroll operation to the device state. -/
def applyScroll (d : Device) : ScrollOp → Device
  | .left => (d.scroll_left true).1
  | .right => (d.scroll_right true).1
  | .up => (Matrix.scroll_up d true).1
  | .down => (Matrix.scroll_down d true).1

/-- Apply a sequence of scroll operations in order. -/
def runScrolls (d : Device) (ops : List ScrollOp) : Device :=
  ops.foldl applyScroll d

/-- Iterated store: write the given values at consecutive buffer offsets
starting at `n`.  This is the net buffer effect of the `set_byte` loop
inside `Matrix.letter`. -/
def writeSeq (l : List Nat) (n : Nat) : List Nat → List Nat
  | [] => l
  | v :: vs => writeSeq (l.set n v) (n + 1) vs

/-- A two-device cascade with an all-zero 16-byte framebuffer. -/
def devZero2 : Device := { cascaded := 2, buffer := List.replicate 16 0 }

/-- A two-device cascade whose 16 buffer bytes are 1..16. -/
def devSeq2 : Device :=
  { cascaded := 2, buffer := [1, 2, 3, 4, 5, 6, 7, 8, 9, 10, 11, 12, 13, 14, 15, 16] }

/-- A single device whose first buffer byte has bit 7 set. -/
def devBit7 : Device := { cascaded := 1, buffer := [128, 0, 0, 0, 0, 0, 0, 0] }

/-- A font whose every glyph has nine columns (one too many). -/
def font9 : Nat → List Nat := fun _ => [1, 2, 3, 4, 5, 6, 7, 8, 9]

/-- A font whose every glyph has three columns. -/
def font3 : Nat → List Nat := fun _ => [1, 2, 3]

/-! ## Generic lemmas about the interleaved wire streams -/

theorem flatMapPairs_length (f g : Nat → Int) (n : Nat) :
    ((List.range n).flatMap fun i => [f i, g i]).length = 2 * n := by
  induction n with
  | zero => simp
  | succ n ih =>
    rw [List.range_succ, List.flatMap_append, List.length_append, ih]
    simp [Nat.mul_succ]

theorem flatMapPairs_getElem_fst (f g : Nat → Int) {n j : Nat} (h : j < n) :
    ((List.range n).flatMap fun i => [f i, g i])[2 * j]? = some (f j) := by
  induction n with
  | zero => omega
  | succ n ih =>
    rw [List.range_succ, List.flatMap_append, List.getElem?_append]
    rcases Nat.lt_or_ge j n with hj | hj
    · rw [if_pos (by rw [flatMapPairs_length]; omega)]
      exact ih hj
    · have hj2 : j = n := by omega
      subst hj2
      rw [if_neg (by rw [flatMapPairs_length]; omega), flatMapPairs_length]
      simp

theorem flatMapPairs_getElem_snd (f g : Nat → Int) {n j : Nat} (h : j < n) :
    ((List.range n).flatMap fun i => [f i, g i])[2 * j + 1]? = some (g j) := by
  induction n with
  | zero => omega
  | succ n ih =>
    rw [List.range_succ, List.flatMap_append, List.getElem?_append]
    rcases Nat.lt_or_ge j n with hj | hj
    · rw [if_pos (by rw [flatMapPairs_length]; omega)]
      exact ih hj
    · have hj2 : j = n := by omega
      subst hj2
      rw [if_neg (by rw [flatMapPairs_length]; omega), flatMapPairs_length]
      have h1 : 2 * j + 1 - 2 * j = 1 := by omega
      rw [h1]
      simp

theorem repPair_length (a b : Int) (n : Nat) :
    ((List.replicate n [a, b]).flatten).length = 2 * n := by
  induction n with
  | zero => simp
  | succ n ih =>
    rw [List.replicate_succ, List.flatten_cons, List.length_append, ih]
    simp [Nat.mul_succ]
    omega

theorem repPair_getElem_fst (a b : Int) {n j : Nat} (h : j < n) :
    ((List.replicate n [a, b]).flatten)[2 * j]? = some a := by
  induction n generalizing j with
  | zero => omega
  | succ n ih =>
    rw [List.replicate_succ, List.flatten_cons]
    cases j with
    | zero => simp
    | succ j =>
      rw [List.getElem?_append_right (by simp only [List.length_cons, List.length_nil]; omega)]
      have h1 : 2 * (j + 1) - [a, b].length = 2 * j := by
        simp only [List.length_cons, List.length_nil]
        omega
      rw [h1]
      exact ih (by omega)

theorem repPair_getElem_snd (a b : Int) {n j : Nat} (h : j < n) :
    ((List.replicate n [a, b]).flatten)[2 * j + 1]? = some b := by
  induction n generalizing j with
  | zero => omega
  | succ n ih =>
    rw [List.replicate_succ, List.flatten_cons]
    cases j with
    | zero => simp
    | succ j =>
      rw [List.getElem?_append_right (by simp only [List.length_cons, List.length_nil]; omega)]
      have h1 : 2 * (j + 1) + 1 - [a, b].length = 2 * j + 1 := by
        simp only [List.length_cons, List.length_nil]
        omega
      rw [h1]
      exact ih (by omega)

/-! ## Structure of flush -/

theorem flush_length (d : Device) : d.flush.length = 8 := by
  simp [Device.flush, NUM_DIGITS]

theorem flush_getElem (d : Device) {p : Nat} (hp : p < 8) :
    d.flush[p]? = some (d.values p) := by
  rw [Device.flush, List.getElem?_map, List.getElem?_range (by simpa [NUM_DIGITS] using hp)]
  rfl

/-- C4: flush performs exactly 8 bus transfers, one per column position
0..7; the transfer for column position `p` interleaves, for every
device `j = 0 .. cascaded - 1` in order, the register byte `p + DIGIT0`
followed by the data byte `buffer[j * NUM_DIGITS + p]`, so each
transfer has length `2 * cascaded`. -/
theorem flush_spec (d : Device) (p j : Nat) (hp : p < 8) (hj : j < d.cascaded) :
    d.flush.length = 8 ∧
    (d.flush.getD p []).length = 2 * d.cascaded ∧
    (d.flush.getD p [])[2 * j]? = some ((p + MAX7219_REG_DIGIT0 : Nat) : Int) ∧
    (d.flush.getD p [])[2 * j + 1]? =
      some ((d.buffer.getD (j * NUM_DIGITS + p) 0 : Nat) : Int) := by
  have hD : d.flush.getD p [] = d.values p := by
    rw [List.getD_eq_getElem?_getD, flush_getElem d hp]
    rfl
  refine ⟨flush_length d, ?_, ?_, ?_⟩
  · rw [hD, Device.values]
    exact flatMapPairs_length _ _ _
  · rw [hD, Device.values]
    exact flatMapPairs_getElem_fst _ _ hj
  · rw [hD, Device.values]
    exact flatMapPairs_getElem_snd _ _ hj

/-- Witness for flush_spec: two cascaded devices with bytes 1..16; the
transfer for column 1 is `[2, 2, 2, 10]` (register 2 then the data from
buffer offsets 1 and 9). -/
theorem flush_spec_witness :
    devSeq2.flush.length = 8 ∧
    (devSeq2.flush.getD 1 []).length = 4 ∧
    (devSeq2.flush.getD 1 [])[2]? = some 2 ∧
    (devSeq2.flush.getD 1 [])[3]? = some 10 := by
  have h := flush_spec devSeq2 1 1 (by decide) (by decide)
  refine ⟨h.1, ?_, ?_, ?_⟩
  · exact h.2.1.trans (by decide)
  · exact h.2.2.1.trans (by decide)
  · exact h.2.2.2.trans (by decide)

/-! ## The command path -/

theorem command_ok (d : Device) (register data : Int) :
    ((9 ≤ register ∧ register ≤ 15) →
      (d.command register data).err = none ∧
      (d.command register data).dev = d ∧
      (d.command register data).tx.length = 1 ∧
      ((d.command register data).tx.getD 0 []).length = 2 * d.cascaded ∧
      (∀ j, j < d.cascaded →
        ((d.command register data).tx.getD 0 [])[2 * j]? = some register ∧
        ((d.command register data).tx.getD 0 [])[2 * j + 1]? = some data)) ∧
    (¬(9 ≤ register ∧ register ≤ 15) →
      (d.command register data).err = some .invalidRegister ∧
      (d.command register data).tx = [] ∧
      (d.command register data).dev = d) := by
  have hc : ((MAX7219_REG_DECODEMODE : Nat) : Int) = 9 ∧
      ((MAX7219_REG_DISPLAYTEST : Nat) : Int) = 15 := by
    constructor <;> simp [MAX7219_REG_DECODEMODE, MAX7219_REG_DISPLAYTEST]
  constructor
  · intro hr
    have he : d.command register data =
        { dev := d, tx := [(List.replicate d.cascaded [register, data]).flatten],
          err := none } := by
      rw [Device.command, if_pos (by rw [hc.1, hc.2]; exact hr)]
    rw [he]
    refine ⟨rfl, rfl, rfl, ?_, ?_⟩
    · exact repPair_length _ _ _
    · intro j hj
      exact ⟨repPair_getElem_fst _ _ hj, repPair_getElem_snd _ _ hj⟩
  · intro hr
    have he : d.command register data =
        { dev := d, tx := [], err := some .invalidRegister } := by
      rw [Device.command, if_neg (by rw [hc.1, hc.2]; exact hr)]
    rw [he]
    exact ⟨rfl, rfl, rfl⟩

/-- C7: for a register in [DECODEMODE, DISPLAYTEST] = [0x9, 0xF],
`command(register, data)` performs exactly one bus transfer consisting
of the pair `(register, data)` repeated once per cascaded device, and
leaves the state unchanged; a register outside that range fails the
assertion before any transfer. -/
theorem command_spec (d : Device) (register data : Int) :
    ((9 ≤ register ∧ register ≤ 15) →
      (d.command register data).err = none ∧
      (d.command register data).dev = d ∧
      (d.command register data).tx.length = 1 ∧
      ((d.command register data).tx.getD 0 []).length = 2 * d.cascaded ∧
      (∀ j, j < d.cascaded →
        ((d.command register data).tx.getD 0 [])[2 * j]? = some register ∧
        ((d.command register data).tx.getD 0 [])[2 * j + 1]? = some data)) ∧
    (¬(9 ≤ register ∧ register ≤ 15) →
      (d.command register data).err = some .invalidRegister ∧
      (d.command register data).tx = [] ∧
      (d.command register data).dev = d) :=
  command_ok d register data

/-- Witness for command_spec: `command(0xA, 7)` on a two-device cascade
transfers exactly the bytes `[0xA, 7, 0xA, 7]`, and `command(0x8, 7)`
fails before any transfer. -/
theorem command_spec_witness :
    (devZero2.command 10 7).err = none ∧
    (devZero2.command 10 7).tx = [[10, 7, 10, 7]] ∧
    (devZero2.command 8 7).err = some .invalidRegister ∧
    (devZero2.command 8 7).tx = [] := by
  have h1 := (command_spec devZero2 10 7).1 (by constructor <;> decide)
  have h2 := (command_spec devZero2 8 7).2 (by decide)
  exact ⟨h1.1, by decide, h2.1, h2.2.1⟩

theorem brightness_ok (d : Device) (v : Int) :
    (¬(0 ≤ v ∧ v < 16) →
      (d.brightness v).err = some .invalidBrightness ∧
      (d.brightness v).tx = [] ∧
      (d.brightness v).dev = d) ∧
    ((0 ≤ v ∧ v < 16) →
      (d.brightness v).err = none ∧
      (d.brightness v).dev = d ∧
      (d.brightness v).tx = (d.command ((MAX7219_REG_INTENSITY : Nat) : Int) v).tx ∧
      (d.brightness v).tx.length = 1) := by
  constructor
  · intro hv
    have he : d.brightness v = { dev := d, tx := [], err := some .invalidBrightness } := by
      rw [Device.brightness, if_neg hv]
    rw [he]
    exact ⟨rfl, rfl, rfl⟩
  · intro hv
    have he : d.brightness v = d.command ((MAX7219_REG_INTENSITY : Nat) : Int) v := by
      rw [Device.brightness, if_pos hv]
    have hi : ((MAX7219_REG_INTENSITY : Nat) : Int) = 10 := by simp [MAX7219_REG_INTENSITY]
    have hcmd := (command_ok d ((MAX7219_REG_INTENSITY : Nat) : Int) v).1
      (by rw [hi]; constructor <;> decide)
    rw [he]
    exact ⟨hcmd.1, hcmd.2.1, rfl, hcmd.2.2.1⟩

/-- C9: `brightness(v)` for `v` outside [0, 16) fails with the
brightness assertion, performing no bus transfer and no state change;
for `v` in range it writes the INTENSITY register through `command`,
in one transfer. -/
theorem brightness_spec (d : Device) (v : Int) :
    (¬(0 ≤ v ∧ v < 16) →
      (d.brightness v).err = some .invalidBrightness ∧
      (d.brightness v).tx = [] ∧
      (d.brightness v).dev = d) ∧
    ((0 ≤ v ∧ v < 16) →
      (d.brightness v).err = none ∧
      (d.brightness v).dev = d ∧
      (d.brightness v).tx = (d.command ((MAX7219_REG_INTENSITY : Nat) : Int) v).tx ∧
      (d.brightness v).tx.length = 1) :=
  brightness_ok d v

/-- Witness for brightness_spec: level 16 is rejected with no transfer
and no state change, level 7 produces one INTENSITY transfer. -/
theorem brightness_spec_witness :
    (devZero2.brightness 16).err = some .invalidBrightness ∧
    (devZero2.brightness 16).tx = [] ∧
    (devZero2.brightness 16).dev = devZero2 ∧
    (devZero2.brightness 7).err = none ∧
    (devZero2.brightness 7).tx.length = 1 := by
  have h1 := (brightness_spec devZero2 16).1 (by decide)
  have h2 := (brightness_spec devZero2 7).2 (by constructor <;> decide)
  exact ⟨h1.1, h1.2.1, h1.2.2, h2.1, h2.2.2.2⟩

/-! ## The pixel and horizontal scroll bugs -/

/-- C1 (code bug): `pixel` swaps its coordinates in the mutation.  On a
two-device cascade with an all-zero buffer, `pixel(1, 0, 1)` executes
`buffer[0] |= 1 << 1`, producing buffer byte 0 = 2 and leaving buffer
byte 1 at 0, whereas the asserts and the docstring (and the spec) call
for bit 0 of buffer[1] to be set with buffer[0] untouched. -/
theorem pixel_swaps_axes_bug :
    (Matrix.pixel devZero2 1 0 1 false).err = none ∧
    (Matrix.pixel devZero2 1 0 1 false).dev.buffer.getD 0 0 = 2 ∧
    (Matrix.pixel devZero2 1 0 1 false).dev.buffer.getD 1 0 = 0 ∧
    ¬((Matrix.pixel devZero2 1 0 1 false).dev.buffer.getD 1 0 = 1 ∧
      (Matrix.pixel devZero2 1 0 1 false).dev.buffer.getD 0 0 = 0) := by
  decide

/-- C2 (code bug): `scroll_right` deletes `buffer[NUM_DIGITS - 1]`, the
byte at flat index 7, not the last byte of the buffer.  On a two-device
cascade holding bytes 1..16 the byte 8 (at index 7) disappears and the
second half of the buffer stays in place, instead of the claimed
translation that would drop the final byte 16; `scroll_left` does drop
the first byte and append a zero. -/
theorem scroll_right_drops_index_seven_bug :
    (devSeq2.scroll_right false).1.buffer =
      [0, 1, 2, 3, 4, 5, 6, 7, 9, 10, 11, 12, 13, 14, 15, 16] ∧
    (devSeq2.scroll_right false).1.buffer ≠
      [0, 1, 2, 3, 4, 5, 6, 7, 8, 9, 10, 11, 12, 13, 14, 15] ∧
    (devSeq2.scroll_left false).1.buffer =
      [2, 3, 4, 5, 6, 7, 8, 9, 10, 11, 12, 13, 14, 15, 16, 0] := by
  decide

/-! ## Vertical scrolling -/

/-- C3 (counterexample): `scroll_down` does not truncate to 8 bits: a
byte with bit 7 set becomes 256 after one `scroll_down`, a value with
bit 8 set, so the shifted-out bit is retained above the row range
rather than lost. -/
theorem scroll_down_overflows_byte_cex :
    (Matrix.scroll_down devBit7 false).1.buffer.getD 0 0 = 256 ∧
    Nat.testBit ((Matrix.scroll_down devBit7 false).1.buffer.getD 0 0) 8 = true ∧
    ¬((Matrix.scroll_down devBit7 false).1.buffer.getD 0 0 < 256) := by
  decide

/-- C3 (amended): `scroll_up` replaces every buffer byte `b` by
`b >>> 1`, which is again an 8-bit value; `scroll_down` replaces every
byte `b` by `b <<< 1` with no 8-bit truncation, so bit 7 of `b` is
retained at bit position 8 of the stored value rather than lost. -/
theorem scroll_up_down_spec (d : Device) (redraw : Bool) (i b : Nat)
    (hb : d.buffer[i]? = some b) (h8 : b < 256) :
    (Matrix.scroll_up d redraw).1.buffer[i]? = some (b >>> 1) ∧
    b >>> 1 < 256 ∧
    (Matrix.scroll_down d redraw).1.buffer[i]? = some (b <<< 1) ∧
    (b.testBit 7 = true → (b <<< 1).testBit 8 = true) := by
  refine ⟨?_, ?_, ?_, ?_⟩
  · simp [Matrix.scroll_up, List.getElem?_map, hb]
  · have hd : b >>> 1 = b / 2 := by
      rw [Nat.shiftRight_eq_div_pow]
    omega
  · simp [Matrix.scroll_down, List.getElem?_map, hb]
  · intro h
    rw [Nat.testBit_shiftLeft]
    simpa using h

/-- Witness for scroll_up_down_spec at the byte 128: scroll_up yields
64, scroll_down yields 256 with bit 8 set. -/
theorem scroll_up_down_spec_witness :
    (Matrix.scroll_up devBit7 false).1.buffer[0]? = some 64 ∧
    (Matrix.scroll_down devBit7 false).1.buffer[0]? = some 256 ∧
    Nat.testBit (128 <<< 1) 8 = true := by
  have h := scroll_up_down_spec devBit7 false 0 128 (by decide) (by decide)
  exact ⟨h.1.trans (by decide), h.2.2.1.trans (by decide), h.2.2.2 (by decide)⟩


theorem clearDeviceLoop_eq (dev : Device) (tx : List (List Int)) (deviceId : Nat)
    (hdev : deviceId < dev.cascaded) :
    Device.clearDeviceLoop ⟨dev, tx, none⟩ deviceId =
      ⟨⟨dev.cascaded, (((((((dev.buffer.set (deviceId * 8) 0).set (deviceId * 8 + 1) 0).set
        (deviceId * 8 + 2) 0).set (deviceId * 8 + 3) 0).set (deviceId * 8 + 4) 0).set
        (deviceId * 8 + 5) 0).set (deviceId * 8 + 6) 0).set (deviceId * 8 + 7) 0⟩, tx, none⟩ := by
  have hr : List.range 8 = [0, 1, 2, 3, 4, 5, 6, 7] := rfl
  simp [Device.clearDeviceLoop, hr, Res.andThen, Device.set_byte, NUM_DIGITS,
    MAX7219_REG_DIGIT0, MAX7219_REG_DIGIT7, hdev]


theorem clearDeviceLoop_spec (r : Res) (deviceId : Nat)
    (hdev : deviceId < r.dev.cascaded) (he : r.err = none) :
    Device.clearDeviceLoop r deviceId =
      ⟨⟨r.dev.cascaded, (((((((r.dev.buffer.set (deviceId * 8) 0).set (deviceId * 8 + 1) 0).set
        (deviceId * 8 + 2) 0).set (deviceId * 8 + 3) 0).set (deviceId * 8 + 4) 0).set
        (deviceId * 8 + 5) 0).set (deviceId * 8 + 6) 0).set (deviceId * 8 + 7) 0⟩,
        r.tx, none⟩ := by
  obtain ⟨dev, tx, err⟩ := r
  cases err with
  | some e => simp at he
  | none => exact clearDeviceLoop_eq dev tx deviceId hdev

theorem setEight_getElem? (b : List Nat) (base i : Nat) :
    ((((((((b.set base 0).set (base + 1) 0).set (base + 2) 0).set (base + 3) 0).set
      (base + 4) 0).set (base + 5) 0).set (base + 6) 0).set (base + 7) 0)[i]? =
      if base ≤ i ∧ i < base + 8 then (if i < b.length then some 0 else none)
      else b[i]? := by
  simp only [List.getElem?_set, List.length_set]
  split_ifs <;> first | rfl | omega

theorem clearLoop_zero_spec (d : Device) (stop : Nat) (hstop : stop ≤ d.cascaded) :
    (d.clearLoop 0 stop).err = none ∧
    (d.clearLoop 0 stop).tx = [] ∧
    (d.clearLoop 0 stop).dev.cascaded = d.cascaded ∧
    (d.clearLoop 0 stop).dev.buffer.length = d.buffer.length ∧
    ∀ i : Nat, (d.clearLoop 0 stop).dev.buffer[i]? =
      if i < stop * 8 then (if i < d.buffer.length then some 0 else none)
      else d.buffer[i]? := by
  induction stop with
  | zero =>
    refine ⟨rfl, rfl, rfl, rfl, ?_⟩
    intro i
    simp only [Nat.zero_mul, Nat.not_lt_zero, if_false]
    rfl
  | succ n ih =>
    obtain ⟨ih1, ih2, ih3, ih4, ih5⟩ := ih (by omega)
    have hstep : d.clearLoop 0 (n + 1) = Device.clearDeviceLoop (d.clearLoop 0 n) n := by
      simp [Device.clearLoop, List.range'_concat, List.foldl_concat]
    have hn : n < (d.clearLoop 0 n).dev.cascaded := by rw [ih3]; omega
    rw [hstep, clearDeviceLoop_spec _ _ hn ih1]
    refine ⟨rfl, ih2, ih3, ?_, ?_⟩
    · simp only [List.length_set]
      exact ih4
    · intro i
      show ((((((((((d.clearLoop 0 n).dev.buffer.set (n * 8) 0).set (n * 8 + 1) 0).set
        (n * 8 + 2) 0).set (n * 8 + 3) 0).set (n * 8 + 4) 0).set
        (n * 8 + 5) 0).set (n * 8 + 6) 0).set (n * 8 + 7) 0))[i]? = _
      rw [setEight_getElem?, ih5 i, ih4]
      split_ifs <;> first | rfl | omega

theorem Device.ext (a b : Device) (h1 : a.cascaded = b.cascaded)
    (h2 : a.buffer = b.buffer) : a = b := by
  cases a
  cases b
  simp_all

theorem res_andThen_none (dv : Device) (tx : List (List Int)) (f : Device → Res) :
    (Res.andThen ⟨dv, tx, none⟩ f) = ⟨(f dv).dev, tx ++ (f dv).tx, (f dv).err⟩ := rfl

theorem clear_some_spec (d : Device) (k : Nat) (hk : k < d.cascaded) :
    (d.clear (some k)).err = none ∧
    (d.clear (some k)).dev.cascaded = d.cascaded ∧
    (d.clear (some k)).dev.buffer.length = d.buffer.length ∧
    (∀ i : Nat, (d.clear (some k)).dev.buffer[i]? =
      if k * 8 ≤ i ∧ i < k * 8 + 8 then (if i < d.buffer.length then some 0 else none)
      else d.buffer[i]?) ∧
    (d.clear (some k)).tx = (d.clear (some k)).dev.flush := by
  have hg : clearGuard d (some k) = true := by
    simp [clearGuard]
    omega
  have hloop : d.clearLoop k (k + 1) = Device.clearDeviceLoop ⟨d, [], none⟩ k := by
    have h1 : k + 1 - k = 1 := by omega
    simp [Device.clearLoop, h1, List.range']
  have hc : d.clear (some k) =
      (d.clearLoop k (k + 1)).andThen fun dev =>
        { dev := dev, tx := dev.flush, err := none } := by
    rw [Device.clear, if_pos hg]
  rw [hc, hloop, clearDeviceLoop_spec ⟨d, [], none⟩ k hk rfl, res_andThen_none]
  refine ⟨rfl, rfl, ?_, ?_, ?_⟩
  · simp only [List.length_set]
  · intro i
    exact setEight_getElem? d.buffer (k * 8) i
  · simp

theorem clear_none_spec (d : Device) (hl : d.buffer.length = NUM_DIGITS * d.cascaded) :
    (d.clear none).err = none ∧
    (d.clear none).dev.cascaded = d.cascaded ∧
    (d.clear none).dev.buffer = List.replicate d.buffer.length 0 ∧
    (d.clear none).tx = (d.clear none).dev.flush := by
  have hD8 : NUM_DIGITS = 8 := rfl
  rw [hD8] at hl
  obtain ⟨h1, h2, h3, h4, h5⟩ := clearLoop_zero_spec d d.cascaded le_rfl
  have hc : d.clear none =
      (d.clearLoop 0 d.cascaded).andThen fun dev =>
        { dev := dev, tx := dev.flush, err := none } := rfl
  rw [hc]
  rw [Res.andThen]
  simp only [h1, h2]
  refine ⟨trivial, h3, ?_, by simp⟩
  apply List.ext_getElem?
  intro i
  rw [h5 i, List.getElem?_replicate]
  rcases Nat.lt_or_ge i d.buffer.length with hi | hi
  · rw [if_pos (show i < d.cascaded * 8 by omega)]
  · rw [if_neg (show ¬i < d.cascaded * 8 by omega), List.getElem?_eq_none hi,
      if_neg (show ¬i < d.buffer.length by omega)]

/-- C8: for an in-range device id `k`, `clear(deviceId=k)` zeroes
exactly the 8 buffer bytes at indices [k*8, k*8+8) and leaves every
other byte unchanged; `clear()` with no device id zeroes the whole
buffer; either form ends with exactly one flush (the 8 transfers of a
single flush of the resulting state). -/
theorem clear_spec (d : Device) (k : Nat) (hk : k < d.cascaded)
    (hl : d.buffer.length = NUM_DIGITS * d.cascaded) :
    (d.clear (some k)).err = none ∧
    (∀ i, k * 8 ≤ i ∧ i < k * 8 + 8 → (d.clear (some k)).dev.buffer[i]? = some 0) ∧
    (∀ i, ¬(k * 8 ≤ i ∧ i < k * 8 + 8) →
      (d.clear (some k)).dev.buffer[i]? = d.buffer[i]?) ∧
    (d.clear (some k)).tx = (d.clear (some k)).dev.flush ∧
    (d.clear (some k)).tx.length = 8 ∧
    (d.clear none).err = none ∧
    (d.clear none).dev.buffer = List.replicate d.buffer.length 0 ∧
    (d.clear none).tx = (d.clear none).dev.flush ∧
    (d.clear none).tx.length = 8 := by
  have hD8 : NUM_DIGITS = 8 := rfl
  obtain ⟨h1, h2, h3, h4, h5⟩ := clear_some_spec d k hk
  obtain ⟨g1, g2, g3, g4⟩ := clear_none_spec d hl
  rw [hD8] at hl
  refine ⟨h1, ?_, ?_, h5, ?_, g1, g3, g4, ?_⟩
  · intro i hi
    rw [h4 i, if_pos hi, if_pos (by omega)]
  · intro i hi
    rw [h4 i, if_neg hi]
  · rw [h5]
    exact flush_length _
  · rw [g4]
    exact flush_length _

/-- Witness for clear_spec on the two-device cascade with bytes 1..16
and k = 1: byte 8 is zeroed, byte 0 keeps value 1, and the full clear
yields sixteen zero bytes. -/
theorem clear_spec_witness :
    (devSeq2.clear (some 1)).err = none ∧
    (devSeq2.clear (some 1)).dev.buffer[8]? = some 0 ∧
    (devSeq2.clear (some 1)).dev.buffer[0]? = some 1 ∧
    (devSeq2.clear (some 1)).tx.length = 8 ∧
    (devSeq2.clear none).dev.buffer = List.replicate 16 0 := by
  have h := clear_spec devSeq2 1 (by decide) (by decide)
  refine ⟨h.1, ?_, ?_, h.2.2.2.2.1, ?_⟩
  · exact h.2.1 8 (by omega)
  · exact (h.2.2.1 0 (by omega)).trans (by decide)
  · exact h.2.2.2.2.2.2.1.trans (by decide)

theorem writeSeq_length (vs : List Nat) (l : List Nat) (n : Nat) :
    (writeSeq l n vs).length = l.length := by
  induction vs generalizing l n with
  | nil => rfl
  | cons v vs ih =>
    rw [writeSeq, ih, List.length_set]

theorem writeSeq_getElem? (vs : List Nat) (l : List Nat) (n i : Nat)
    (hfit : n + vs.length ≤ l.length) :
    (writeSeq l n vs)[i]? =
      if n ≤ i ∧ i < n + vs.length then vs[i - n]? else l[i]? := by
  induction vs generalizing l n with
  | nil =>
    rw [writeSeq, if_neg (by simp)]
  | cons v vs ih =>
    rw [writeSeq, ih (l.set n v) (n + 1) (by simp only [List.length_set]; simp at hfit; omega)]
    rcases Nat.lt_trichotomy i n with hi | hi | hi
    · rw [if_neg (by omega), if_neg (by omega), List.getElem?_set_ne (by omega)]
    · subst hi
      rw [if_neg (by omega), if_pos ⟨le_rfl, by simp⟩, List.getElem?_set_self
        (by simp at hfit; omega), Nat.sub_self]
      simp
    · rcases Nat.lt_or_ge i (n + 1 + vs.length) with hi2 | hi2
      · rw [if_pos ⟨by omega, hi2⟩, if_pos ⟨by omega, by simp; omega⟩]
        have he : i - n = (i - (n + 1)) + 1 := by omega
        rw [he, List.getElem?_cons_succ]
      · rw [if_neg (by omega), if_neg (by simp; omega), List.getElem?_set_ne (by omega)]

theorem letterLoop_fits (values : List Nat) (d : Device) (deviceId col a : Nat)
    (hdev : deviceId < d.cascaded) (hcol : 1 ≤ col)
    (hfit : col + values.length ≤ 9) :
    Matrix.letterLoop d deviceId values col a =
      ⟨⟨d.cascaded, writeSeq d.buffer (deviceId * 8 + col - 1) values⟩, [], none⟩ := by
  induction values generalizing d col with
  | nil =>
    rw [Matrix.letterLoop, writeSeq]
  | cons v vs ih =>
    have hcol8 : col ≤ 8 := by simp at hfit; omega
    rw [Matrix.letterLoop, if_neg (by rw [MAX7219_REG_DIGIT7]; omega)]
    have hsb : d.set_byte deviceId col v false =
        ⟨⟨d.cascaded, d.buffer.set (deviceId * 8 + col - 1) v⟩, [], none⟩ := by
      rw [Device.set_byte, if_pos hdev, if_pos ⟨hcol, hcol8⟩]
      rfl
    rw [hsb, res_andThen_none]
    rw [ih ⟨d.cascaded, d.buffer.set (deviceId * 8 + col - 1) v⟩ (col + 1) hdev (by omega)
      (by simp at hfit ⊢; omega)]
    have he : deviceId * 8 + (col + 1) - 1 = (deviceId * 8 + col - 1) + 1 := by omega
    rw [writeSeq]
    simp only [he]
    rfl

theorem letterLoop_over (values : List Nat) (d : Device) (deviceId col a : Nat)
    (hdev : deviceId < d.cascaded) (hl : d.buffer.length = 8 * d.cascaded)
    (hcol : 1 ≤ col) (hcol9 : col ≤ 9) (hover : 9 < col + values.length) :
    (Matrix.letterLoop d deviceId values col a).err = some (.glyphOverflow a) ∧
    (Matrix.letterLoop d deviceId values col a).dev.cascaded = d.cascaded ∧
    (Matrix.letterLoop d deviceId values col a).dev.buffer.length = d.buffer.length ∧
    ∀ i : Nat, (Matrix.letterLoop d deviceId values col a).dev.buffer[i]? =
      if deviceId * 8 ≤ i ∧ i < deviceId * 8 + 8 then some 0 else d.buffer[i]? := by
  induction values generalizing d col with
  | nil =>
    simp at hover
    omega
  | cons v vs ih =>
    by_cases h8 : 8 < col
    · obtain ⟨c1, c2, c3, c4, c5⟩ := clear_some_spec d deviceId hdev
      rw [Matrix.letterLoop, if_pos (by rw [MAX7219_REG_DIGIT7]; omega)]
      simp only [c1]
      refine ⟨trivial, c2, c3, ?_⟩
      intro i
      rw [c4 i]
      split_ifs <;> first | rfl | omega
    · rw [Matrix.letterLoop, if_neg (by rw [MAX7219_REG_DIGIT7]; omega)]
      have hcol8 : col ≤ 8 := by omega
      have hsb : d.set_byte deviceId col v false =
          ⟨⟨d.cascaded, d.buffer.set (deviceId * 8 + col - 1) v⟩, [], none⟩ := by
        rw [Device.set_byte, if_pos hdev, if_pos ⟨hcol, hcol8⟩]
        rfl
      rw [hsb, res_andThen_none]
      obtain ⟨i1, i2, i3, i4⟩ := ih ⟨d.cascaded, d.buffer.set (deviceId * 8 + col - 1) v⟩
        (col + 1) hdev (by simp only [List.length_set]; exact hl) (by omega) (by omega)
        (by simp at hover ⊢; omega)
      refine ⟨i1, i2, ?_, ?_⟩
      · rw [i3]
        simp only [List.length_set]
      · intro i
        rw [i4 i]
        rcases Nat.lt_or_ge i (deviceId * 8 + 8) with hi | hi
        · rcases Nat.lt_or_ge i (deviceId * 8) with hj | hj
          · rw [if_neg (by omega), if_neg (by omega), List.getElem?_set_ne (by omega)]
          · rw [if_pos ⟨by omega, by omega⟩, if_pos ⟨by omega, by omega⟩]
        · rw [if_neg (by omega), if_neg (by omega), List.getElem?_set_ne (by omega)]

/-- C6: for an in-range device id and an in-range ascii code, a glyph
with more than 8 column values makes `letter` clear the target device
(the 8 bytes at [deviceId*8, deviceId*8+8) all become zero, discarding
the partial columns already written) and fail with the overflow error
naming the code, every other buffer byte unchanged; a glyph of 8 or
fewer columns does not fail. -/
theorem letter_overflow_spec (d : Device) (deviceId code : Nat) (font : Nat → List Nat)
    (hdev : deviceId < d.cascaded) (hl : d.buffer.length = NUM_DIGITS * d.cascaded)
    (hcode : code < 256) :
    (8 < (font code).length →
      (Matrix.letter d deviceId code font true).err = some (.glyphOverflow code) ∧
      (∀ i, deviceId * 8 ≤ i ∧ i < deviceId * 8 + 8 →
        (Matrix.letter d deviceId code font true).dev.buffer[i]? = some 0) ∧
      (∀ i, ¬(deviceId * 8 ≤ i ∧ i < deviceId * 8 + 8) →
        (Matrix.letter d deviceId code font true).dev.buffer[i]? = d.buffer[i]?)) ∧
    ((font code).length ≤ 8 →
      (Matrix.letter d deviceId code font true).err = none) := by
  have hD8 : NUM_DIGITS = 8 := rfl
  rw [hD8] at hl
  have hletter : Matrix.letter d deviceId code font true =
      (Matrix.letterLoop d deviceId (font code) MAX7219_REG_DIGIT0 code).andThen
        fun dev => { dev := dev, tx := dev.flush, err := none } := by
    rw [Matrix.letter, if_pos hcode]
    rfl
  constructor
  · intro hn
    obtain ⟨o1, o2, o3, o4⟩ := letterLoop_over (font code) d deviceId MAX7219_REG_DIGIT0
      code hdev (by omega) le_rfl (by decide) (show 9 < 1 + (font code).length by omega)
    rw [hletter]
    simp only [Res.andThen, o1]
    refine ⟨trivial, ?_, ?_⟩
    · intro i hi
      rw [o4 i, if_pos hi]
    · intro i hi
      rw [o4 i, if_neg hi]
  · intro hn
    rw [hletter, letterLoop_fits (font code) d deviceId MAX7219_REG_DIGIT0 code hdev
      le_rfl (show 1 + (font code).length ≤ 9 by omega), res_andThen_none]

/-- Witness for letter_overflow_spec: a nine-column glyph on device 0
of the two-device cascade with bytes 1..16 raises the overflow error
for code 65, zeroes bytes 0..7, leaves byte 8 at value 9; a
three-column glyph does not fail. -/
theorem letter_overflow_spec_witness :
    (Matrix.letter devSeq2 0 65 font9 true).err = some (.glyphOverflow 65) ∧
    (Matrix.letter devSeq2 0 65 font9 true).dev.buffer[0]? = some 0 ∧
    (Matrix.letter devSeq2 0 65 font9 true).dev.buffer[8]? = some 9 ∧
    (Matrix.letter devSeq2 0 65 font3 true).err = none := by
  have h := (letter_overflow_spec devSeq2 0 65 font9 (by decide) (by decide)
    (by decide)).1 (by decide)
  have h2 := (letter_overflow_spec devSeq2 0 65 font3 (by decide) (by decide)
    (by decide)).2 (by decide)
  refine ⟨h.1, ?_, ?_, h2⟩
  · exact h.2.1 0 (by omega)
  · exact (h.2.2 8 (by omega)).trans (by decide)

/-- C10: for an in-range device id and an in-range ascii code, a glyph
with n < 8 column values is written, in order, to buffer offsets
deviceId*8 .. deviceId*8+n-1, and every other buffer byte, including
the remaining 8-n bytes of that device and all bytes of other devices,
is unchanged; no error is raised. -/
theorem letter_short_glyph_spec (d : Device) (deviceId code : Nat) (font : Nat → List Nat)
    (hdev : deviceId < d.cascaded) (hl : d.buffer.length = NUM_DIGITS * d.cascaded)
    (hcode : code < 256) (hn : (font code).length < 8) :
    (Matrix.letter d deviceId code font true).err = none ∧
    (∀ j, j < (font code).length →
      (Matrix.letter d deviceId code font true).dev.buffer[deviceId * 8 + j]? =
        (font code)[j]?) ∧
    (∀ i, (∀ j, j < (font code).length → i ≠ deviceId * 8 + j) →
      (Matrix.letter d deviceId code font true).dev.buffer[i]? = d.buffer[i]?) := by
  have hD8 : NUM_DIGITS = 8 := rfl
  rw [hD8] at hl
  have hletter : Matrix.letter d deviceId code font true =
      (Matrix.letterLoop d deviceId (font code) MAX7219_REG_DIGIT0 code).andThen
        fun dev => { dev := dev, tx := dev.flush, err := none } := by
    rw [Matrix.letter, if_pos hcode]
    rfl
  rw [hletter, letterLoop_fits (font code) d deviceId MAX7219_REG_DIGIT0 code hdev
    le_rfl (show 1 + (font code).length ≤ 9 by omega), res_andThen_none]
  have hfit2 : deviceId * 8 + (font code).length ≤ d.buffer.length := by omega
  refine ⟨rfl, ?_, ?_⟩
  · intro j hj
    show (writeSeq d.buffer (deviceId * 8) (font code))[deviceId * 8 + j]? = (font code)[j]?
    rw [writeSeq_getElem? (font code) d.buffer (deviceId * 8) (deviceId * 8 + j) hfit2,
      if_pos ⟨by omega, by omega⟩, Nat.add_sub_cancel_left]
  · intro i hi
    show (writeSeq d.buffer (deviceId * 8) (font code))[i]? = d.buffer[i]?
    rw [writeSeq_getElem? (font code) d.buffer (deviceId * 8) i hfit2, if_neg ?_]
    intro hrange
    exact hi (i - deviceId * 8) (by omega) (by omega)

/-- Witness for letter_short_glyph_spec: a three-column glyph on device
1 of the two-device cascade with bytes 1..16 writes 1, 2, 3 at offsets
8..10 and leaves offset 11 at its old value 12, with no error. -/
theorem letter_short_glyph_spec_witness :
    (Matrix.letter devSeq2 1 66 font3 true).err = none ∧
    (Matrix.letter devSeq2 1 66 font3 true).dev.buffer[8]? = some 1 ∧
    (Matrix.letter devSeq2 1 66 font3 true).dev.buffer[11]? = some 12 := by
  have h := letter_short_glyph_spec devSeq2 1 66 font3 (by decide) (by decide)
    (by decide) (by decide)
  refine ⟨h.1, ?_, ?_⟩
  · exact (h.2.1 0 (by decide)).trans (by decide)
  · refine (h.2.2 11 ?_).trans (by decide)
    intro j hj
    have h3 : (font3 66).length = 3 := rfl
    omega

theorem andThen_err_dev (r : Res) (f : Device → Res) (h : r.err = none) :
    (r.andThen f).err = (f r.dev).err ∧ (r.andThen f).dev = (f r.dev).dev := by
  obtain ⟨dv, tx, err⟩ := r
  cases err with
  | some e => simp at h
  | none => exact ⟨rfl, rfl⟩

theorem applyScroll_preserves (d : Device) (op : ScrollOp)
    (hl : d.buffer.length = NUM_DIGITS * d.cascaded) (hc : 1 ≤ d.cascaded) :
    (applyScroll d op).cascaded = d.cascaded ∧
    (applyScroll d op).buffer.length = d.buffer.length := by
  have hD8 : NUM_DIGITS = 8 := rfl
  rw [hD8] at hl
  cases op with
  | left =>
    refine ⟨rfl, ?_⟩
    show (d.buffer.eraseIdx 0 ++ [0]).length = _
    rw [List.length_append, List.length_eraseIdx]
    simp only [List.length_cons, List.length_nil]
    split_ifs <;> omega
  | right =>
    refine ⟨rfl, ?_⟩
    show (0 :: d.buffer.eraseIdx (NUM_DIGITS - 1)).length = _
    rw [List.length_cons, List.length_eraseIdx, hD8]
    split_ifs <;> omega
  | up =>
    refine ⟨rfl, ?_⟩
    show ((d.buffer.map fun value => value >>> 1)).length = _
    rw [List.length_map]
  | down =>
    refine ⟨rfl, ?_⟩
    show ((d.buffer.map fun value => value <<< 1)).length = _
    rw [List.length_map]

theorem init_ok (c : Int) (hc : 0 < c) :
    ∃ tx, Device.init c =
      .ok (⟨c.toNat, List.replicate (NUM_DIGITS * c.toNat) 0⟩, tx) := by
  refine ⟨?_, ?_⟩
  rotate_left
  unfold Device.init
  rw [if_pos hc]
  simp only []
  set d0 : Device := ⟨c.toNat, List.replicate (NUM_DIGITS * c.toNat) 0⟩ with hd0
  set r1 : Res := d0.command ((MAX7219_REG_SCANLIMIT : Nat) : Int) 7 with hr1
  set r2 : Res := r1.andThen (fun d1 => d1.command ((MAX7219_REG_DECODEMODE : Nat) : Int) 0)
    with hr2
  set r3 : Res := r2.andThen (fun d2 => d2.command ((MAX7219_REG_DISPLAYTEST : Nat) : Int) 0)
    with hr3
  set r4 : Res := r3.andThen (fun d3 => d3.command ((MAX7219_REG_SHUTDOWN : Nat) : Int) 1)
    with hr4
  set r5 : Res := r4.andThen (fun d4 => d4.brightness 7) with hr5
  set r6 : Res := r5.andThen (fun d5 => d5.clear none) with hr6
  have hl0 : d0.buffer.length = NUM_DIGITS * d0.cascaded := by
    rw [hd0]
    simp
  have k1 := (command_ok d0 ((MAX7219_REG_SCANLIMIT : Nat) : Int) 7).1
    (by constructor <;> decide)
  have k2 := (command_ok d0 ((MAX7219_REG_DECODEMODE : Nat) : Int) 0).1
    (by constructor <;> decide)
  have k3 := (command_ok d0 ((MAX7219_REG_DISPLAYTEST : Nat) : Int) 0).1
    (by constructor <;> decide)
  have k4 := (command_ok d0 ((MAX7219_REG_SHUTDOWN : Nat) : Int) 1).1
    (by constructor <;> decide)
  have k5 := (brightness_ok d0 7).2 (by constructor <;> decide)
  have k6 := clear_none_spec d0 hl0
  have e1 : r1.err = none := by rw [hr1]; exact k1.1
  have v1 : r1.dev = d0 := by rw [hr1]; exact k1.2.1
  have e2 : r2.err = none := by
    rw [hr2, (andThen_err_dev r1 _ e1).1]
    rw [v1]
    exact k2.1
  have v2 : r2.dev = d0 := by
    rw [hr2, (andThen_err_dev r1 _ e1).2]
    rw [v1]
    exact k2.2.1
  have e3 : r3.err = none := by
    rw [hr3, (andThen_err_dev r2 _ e2).1]
    rw [v2]
    exact k3.1
  have v3 : r3.dev = d0 := by
    rw [hr3, (andThen_err_dev r2 _ e2).2]
    rw [v2]
    exact k3.2.1
  have e4 : r4.err = none := by
    rw [hr4, (andThen_err_dev r3 _ e3).1]
    rw [v3]
    exact k4.1
  have v4 : r4.dev = d0 := by
    rw [hr4, (andThen_err_dev r3 _ e3).2]
    rw [v3]
    exact k4.2.1
  have e5 : r5.err = none := by
    rw [hr5, (andThen_err_dev r4 _ e4).1]
    rw [v4]
    exact k5.1
  have v5 : r5.dev = d0 := by
    rw [hr5, (andThen_err_dev r4 _ e4).2]
    rw [v4]
    exact k5.2.1
  have e6 : r6.err = none := by
    rw [hr6, (andThen_err_dev r5 _ e5).1]
    rw [v5]
    exact k6.1
  have v6 : r6.dev = ⟨d0.cascaded, List.replicate d0.buffer.length 0⟩ := by
    rw [hr6, (andThen_err_dev r5 _ e5).2]
    rw [v5]
    exact Device.ext _ _ k6.2.1 k6.2.2.1
  have hfold : (⟨d0.cascaded, List.replicate d0.buffer.length 0⟩ : Device) = d0 := by
    rw [hd0]
    simp
  rw [e6]
  exact congrArg (fun dv => Except.ok (dv, r6.tx)) (v6.trans hfold)

/-- C5: for every cascadeCount, construction fails when cascadeCount is
below 1, and otherwise yields a framebuffer of length 8 * cascadeCount
that keeps exactly that length (and the cascade size) after every
sequence of scrollLeft, scrollRight, scrollUp, scrollDown operations,
in any order. -/
theorem buffer_length_invariant (c : Int) :
    (c < 1 → Device.init c = .error .invalidCascade) ∧
    (1 ≤ c → ∃ d tx, Device.init c = .ok (d, tx) ∧
      ∀ ops : List ScrollOp,
        (runScrolls d ops).buffer.length = 8 * c.toNat ∧
        (runScrolls d ops).cascaded = c.toNat) := by
  constructor
  · intro h
    unfold Device.init
    rw [if_neg (by omega)]
  · intro h
    obtain ⟨tx, htx⟩ := init_ok c (by omega)
    refine ⟨_, tx, htx, ?_⟩
    have key : ∀ (ops : List ScrollOp) (dd : Device),
        dd.buffer.length = NUM_DIGITS * dd.cascaded → 1 ≤ dd.cascaded →
        (runScrolls dd ops).buffer.length = dd.buffer.length ∧
        (runScrolls dd ops).cascaded = dd.cascaded := by
      intro ops
      induction ops with
      | nil =>
        intro dd h1 h2
        exact ⟨rfl, rfl⟩
      | cons op ops ih =>
        intro dd h1 h2
        have hp := applyScroll_preserves dd op h1 h2
        have hrec := ih (applyScroll dd op)
          (by rw [hp.1, hp.2]; exact h1) (by rw [hp.1]; exact h2)
        constructor
        · show (runScrolls (applyScroll dd op) ops).buffer.length = _
          rw [hrec.1, hp.2]
        · show (runScrolls (applyScroll dd op) ops).cascaded = _
          rw [hrec.2, hp.1]
    intro ops
    have hk := key ops ⟨c.toNat, List.replicate (NUM_DIGITS * c.toNat) 0⟩
      (by simp) (show 1 ≤ c.toNat by omega)
    constructor
    · rw [hk.1]
      simp [NUM_DIGITS]
    · exact hk.2

/-- Witness for buffer_length_invariant: construction at cascadeCount 0
fails, and at cascadeCount 2 yields a device whose buffer length stays
16 under every scroll sequence. -/
theorem buffer_length_invariant_witness :
    Device.init 0 = .error .invalidCascade ∧
    (∃ d tx, Device.init 2 = .ok (d, tx) ∧
      ∀ ops : List ScrollOp,
        (runScrolls d ops).buffer.length = 8 * (2 : Int).toNat ∧
        (runScrolls d ops).cascaded = (2 : Int).toNat) := by
  exact ⟨(buffer_length_invariant 0).1 (by norm_num),
    (buffer_length_invariant 2).2 (by norm_num)⟩

end RpiLedMatrix
